import Mathlib

/-
Verification of the build-and-push pipeline of app.py.

The pipeline `build_and_push_image` is a Python generator that validates an
image name, resolves a registry namespace from the repository URL, logs in to
a registry, clones the repository into a fresh temporary directory, checks for
a Dockerfile, builds and pushes the image, and finally (in a `finally` block)
restores the working directory and removes the temporary directory.  We embed
it as a pure function from the request, the starting working directory and an
environment (the outcomes of the four external subprocess calls, the temporary
directory chosen by `tempfile.mkdtemp`, and whether the Dockerfile exists) to
the list of yielded log snapshots, the trace of side-effecting events, and the
final working directory.
-/

/-- One log entry as produced by `format_status_message` in app.py: the message
text and the severity string ("info", "success" or "error").  The wall-clock
timestamp that `format_status_message` embeds in its HTML rendering comes from
the clock, an input of the environment; it is handled by `renderEntry` below
and carries no information used by any claim. -/
structure Entry where
  message : String
  status : String
deriving Repr, DecidableEq

/-- Side-effecting events of one pipeline run: an external process invocation
`subprocess.run(cmd, input=stdin)` (`runProc`), `tempfile.mkdtemp()` returning
a directory, `os.chdir`, and `shutil.rmtree`. -/
inductive Event where
  | runProc : List String → Option String → Event
  | mkdtemp : String → Event
  | chdir : String → Event
  | rmtree : String → Event
deriving Repr, DecidableEq

/-- Outcome of one external process call: exit status and captured stderr. -/
structure ProcResult where
  returncode : Int
  stderr : String
deriving Repr, DecidableEq

/-- The environment of one run: results of the four external calls in program
order, the directory returned by `tempfile.mkdtemp()`, and whether
`os.path.exists` finds the Dockerfile. -/
structure Env where
  loginResult : ProcResult
  cloneResult : ProcResult
  buildResult : ProcResult
  pushResult : ProcResult
  tempDir : String
  dockerfileExists : Bool
deriving Repr, DecidableEq

/-- The arguments of `build_and_push_image` in app.py.  `username` is the
optional explicit namespace override (Python default `None`); `registry`
defaults to "GitHub Container Registry (GHCR)" and `dockerfile_subdir`
to ".". -/
structure Request where
  repo_url : String
  registry_token : String
  image_name : String
  username : Option String
  registry : String
  dockerfile_subdir : String
deriving Repr, DecidableEq

/-- What a full run produces: the yielded log snapshots in order (each snapshot
is the whole `status_messages` list at that yield), the event trace, and the
working directory when the generator is exhausted. -/
structure RunOutput where
  snapshots : List (List Entry)
  events : List Event
  finalCwd : String
deriving Repr, DecidableEq

/- ----------------------------------------------------------------------
Character-list utilities mirroring the Python string operations used by
app.py (`str.split`, `str.strip('/')`, `str.startswith`, `urlparse().path`,
`os.path.join`).
---------------------------------------------------------------------- -/
/-- Python `s.split(sep)` for a one-character separator: splits at every
occurrence, keeping empty pieces, never returning an empty list. -/
def splitOnChar (c : Char) : List Char → List (List Char)
  | [] => [[]]
  | x :: xs =>
    let r := splitOnChar c xs
    if x = c then [] :: r
    else
      match r with
      | [] => [[x]]
      | y :: ys => (x :: y) :: ys

/-- Python `s.startswith(p)` on character lists. -/
def startsWithChars : List Char → List Char → Bool
  | [], _ => true
  | _ :: _, [] => false
  | p :: ps, c :: cs => p = c && startsWithChars ps cs

/-- Python `s.find(':')`: index of the first colon, if any. -/
def findColonIdx : List Char → Option Nat
  | [] => none
  | c :: cs => if c = ':' then some 0 else (findColonIdx cs).map (fun i => i + 1)

/-- Python `s.strip('/')`: remove leading and trailing slashes. -/
def pyStripSlash (l : List Char) : List Char :=
  ((l.dropWhile (fun c => c = '/')).reverse.dropWhile (fun c => c = '/')).reverse

/-- The characters CPython's `urllib.parse` accepts inside a URL scheme. -/
def scheme_char (c : Char) : Bool :=
  c.isAlpha || c.isDigit || c = '+' || c = '-' || c = '.'

/-- First character is an (ASCII) letter, as CPython requires of a scheme. -/
def headAlpha : List Char → Bool
  | [] => false
  | c :: _ => c.isAlpha

/-- The `.path` field of CPython's `urllib.parse.urlparse` (the only field
app.py reads), for URLs without embedded tab/newline characters: strip a
leading `scheme:` when everything before the first colon is a valid scheme
starting with a letter, strip a `//netloc` up to the next `/`, `?` or `#`,
then cut at the first `#` and the first `?`. -/
def urlparsePath (l : List Char) : List Char :=
  let afterScheme :=
    match findColonIdx l with
    | some i =>
      if i = 0 then l
      else if headAlpha l && (l.take i).all scheme_char then l.drop (i + 1)
      else l
    | none => l
  let afterNetloc :=
    match afterScheme with
    | '/' :: '/' :: rest => rest.dropWhile (fun c => c ≠ '/' && c ≠ '?' && c ≠ '#')
    | _ => afterScheme
  (afterNetloc.takeWhile (fun c => c ≠ '#')).takeWhile (fun c => c ≠ '?')

/-- Python `os.path.join(a, b)` on POSIX: `b` absolute replaces `a`; otherwise
join with a single `/` unless `a` is empty or already ends with `/`. -/
def pyPathJoin2 (a b : String) : String :=
  if b.startsWith ("/") then b
  else if a = "" || a.endsWith ("/") then a ++ b
  else a ++ "/" ++ b

/-- Python `os.path.join(a, b, c)`. -/
def pyPathJoin3 (a b c : String) : String :=
  pyPathJoin2 (pyPathJoin2 a b) c

/- ----------------------------------------------------------------------
extract_github_username (app.py lines 36-53).
---------------------------------------------------------------------- -/
/-- The characters of the `git@` SSH-URL marker checked by app.py. -/
def gitAtChars : List Char := ['g', 'i', 't', '@']

/-- app.py `extract_github_username`:
```
if repo_url.startswith('git@'):
    return repo_url.split(':')[1].split('/')[0]
else:
    path = urlparse(repo_url).path
    return path.strip('/').split('/')[0]
```
The `[1]` subscript raises `IndexError` when the URL starts with `git@` but
contains no colon; that exception is the `Except.error` case (its Python
message is "list index out of range").  `split('/')[0]` never fails because
`str.split` always returns a non-empty list. -/
def extract_github_username (repo_url : String) : Except String String :=
  let l := repo_url.toList
  if startsWithChars gitAtChars l then
    match (splitOnChar (':') l).drop 1 with
    | [] => Except.error ("list index out of range")
    | seg :: _ => Except.ok (String.mk ((splitOnChar ('/') seg).headD []))
  else
    Except.ok (String.mk ((splitOnChar ('/') (pyStripSlash (urlparsePath l))).headD []))

/- ----------------------------------------------------------------------
validate_image_name (app.py lines 55-75).
---------------------------------------------------------------------- -/
/-- `[a-z0-9]` of the validation pattern. -/
def isLowerAlnum (c : Char) : Bool :=
  ('a' ≤ c && c ≤ 'z') || ('0' ≤ c && c ≤ '9')

/-- The separators `.`, `_`, `-` of the validation pattern. -/
def isNameSep (c : Char) : Bool :=
  c = '.' || c = '_' || c = '-'

/-- Full match of `[a-z0-9][a-z0-9._-]*[a-z0-9]` against a character list.
Because the middle class contains both anchor classes, the backtracking search
succeeds exactly when the list has length at least two, its first and last
characters are lowercase alphanumerics, and every character in between is a
lowercase alphanumeric or a separator. -/
def regexCore (l : List Char) : Bool :=
  match l with
  | [] => false
  | c :: rest =>
    match rest.reverse with
    | [] => false
    | lastc :: midRev =>
      isLowerAlnum c && isLowerAlnum lastc &&
        midRev.all (fun x => isLowerAlnum x || isNameSep x)

/-- Python `re.match(r'^[a-z0-9][a-z0-9._-]*[a-z0-9]$', s)` is not none.
In Python (without `re.MULTILINE`) `$` matches at the end of the string or
just before a single trailing newline, so a match succeeds on the whole string
or on the string minus one final `'\n'`. -/
def pyRegexMatch (s : String) : Bool :=
  let l := s.toList
  regexCore l ||
    (match l.getLast? with
     | some c => c = '\n' && regexCore l.dropLast
     | none => false)

/-- app.py `validate_image_name`: `(is_valid, error_message)`. -/
def validate_image_name (image_name : String) : Bool × String :=
  if image_name = "" then (false, "Image name cannot be empty")
  else if pyRegexMatch image_name = false then
    (false, "Image name must contain only lowercase letters, numbers, and separators (., -, _), and must start and end with a letter or number")
  else (true, "")

/- ----------------------------------------------------------------------
The pipeline driver build_and_push_image (app.py lines 77-196).
---------------------------------------------------------------------- -/
/-- app.py line 88: `gh_username = username if username else
extract_github_username(repo_url)` — Python truthiness, so `None` and the
empty string both fall back to URL parsing. -/
def usernameResolve (req : Request) : Except String String :=
  match req.username with
  | some u => if u = "" then extract_github_username req.repo_url else Except.ok u
  | none => extract_github_username req.repo_url

/-- app.py lines 89-93: the registry host selected by the dropdown string. -/
def registry_url_of (req : Request) : String :=
  if req.registry = "Docker Hub" then "docker.io" else "ghcr.io"

/-- app.py lines 91 and 94: the fully qualified image reference, computed once
from the request and the resolved namespace. -/
def full_image_name_of (req : Request) (gh_username : String) : String :=
  if req.registry = "Docker Hub" then gh_username ++ "/" ++ req.image_name
  else "ghcr.io/" ++ gh_username ++ "/" ++ req.image_name

/-- app.py line 105: the `docker login` argument list.  The token itself is
not among the arguments; it is fed on stdin (`input=registry_token`). -/
def login_cmd (req : Request) (gh_username : String) : List String :=
  [("docker" : String), "login", registry_url_of req, "-u", gh_username, "--password-stdin"]

/-- app.py line 124: the `git clone` argument list. -/
def clone_cmd (req : Request) (temp_dir : String) : List String :=
  [("git" : String), "clone", req.repo_url, temp_dir]

/-- app.py line 141: `os.path.join(temp_dir, dockerfile_subdir, "Dockerfile")`. -/
def dockerfile_path_of (req : Request) (temp_dir : String) : String :=
  pyPathJoin3 temp_dir req.dockerfile_subdir ("Dockerfile")

/-- app.py lines 155-157: the `docker build` argument list, with the build
context scoped to the configured subdirectory. -/
def build_cmd (req : Request) (gh_username temp_dir : String) : List String :=
  [("docker" : String), "build", "-t", full_image_name_of req gh_username, "-f",
    dockerfile_path_of req temp_dir, pyPathJoin2 temp_dir req.dockerfile_subdir]

/-- app.py line 171: the `docker push` argument list. -/
def push_cmd (req : Request) (gh_username : String) : List String :=
  [("docker" : String), "push", full_image_name_of req gh_username]

/-- Intermediate generator state: the mutable `status_messages` list, the
snapshots yielded so far, the event trace, and the current working
directory. -/
structure RunState where
  status_messages : List Entry
  snapshots : List (List Entry)
  events : List Event
  cwd : String
deriving Repr, DecidableEq

/-- `status_messages.append(format_status_message(message, status))`. -/
def appendMsg (s : RunState) (message status : String) : RunState :=
  { s with status_messages := s.status_messages ++ [Entry.mk message status] }

/-- `yield _format_log(status_messages)`: emit the current accumulated log as
one snapshot. -/
def yieldLog (s : RunState) : RunState :=
  { s with snapshots := s.snapshots ++ [s.status_messages] }

/-- Record one side-effecting event. -/
def emit (s : RunState) (e : Event) : RunState :=
  { s with events := s.events ++ [e] }

/-- app.py lines 188-196, the `finally` block: `os.chdir(original_cwd)` (its
`try/except pass` wrapper only matters if the original directory vanished,
which is outside this model, so the chdir succeeds); then, when `temp_dir`
was assigned, remove it and yield one more snapshot.  `temp_dir` is `None`
exactly when `tempfile.mkdtemp()` was never reached, and when it was reached
it returned a fresh existing directory that nothing else removes during the
run, so `temp_dir and os.path.exists(temp_dir)` is equivalent to `temp_dir is
not None`. -/
def finallyBlock (original_cwd : String) (temp_dir : Option String) (s : RunState) : RunState :=
  let s1 := emit s (Event.chdir original_cwd)
  let s2 := { s1 with cwd := original_cwd }
  match temp_dir with
  | none => s2
  | some d =>
    let s3 := emit s2 (Event.rmtree d)
    let s4 := appendMsg s3 ("Cleaned up temporary directory: " ++ d) ("info")
    yieldLog s4

/-- app.py `build_and_push_image`, driven to exhaustion by the caller.  The
generator body is transcribed line by line; every `return` and the fall-off
end of the `try` block route through `finallyBlock`.  The `logger.*` calls
write to the process log, not to the yielded snapshots, and are not modelled.
The only internal exception the body can raise is the `IndexError` from
`extract_github_username`, which the `except Exception` handler turns into a
generic error entry. -/
def build_and_push_image (req : Request) (original_cwd : String) (env : Env) : RunOutput :=
  let s0 : RunState := RunState.mk [] [] [] original_cwd
  let finish := fun (temp_dir : Option String) (s : RunState) =>
    let sf := finallyBlock original_cwd temp_dir s
    RunOutput.mk sf.snapshots sf.events sf.cwd
  let v := validate_image_name req.image_name
  if v.1 = false then
    finish none (yieldLog (appendMsg s0 ("Invalid image name: " ++ v.2) ("error")))
  else
    match usernameResolve req with
    | Except.error e =>
      finish none (yieldLog (appendMsg s0 ("Error: " ++ e) ("error")))
    | Except.ok gh_username =>
      let registry_url := registry_url_of req
      let full_image_name := full_image_name_of req gh_username
      let s := yieldLog (appendMsg s0 ("Starting build process for " ++ full_image_name ++ "...") ("info"))
      let s := yieldLog (appendMsg s ("Authenticating with " ++ registry_url ++ "...") ("info"))
      let s := emit s (Event.runProc (login_cmd req gh_username) (some req.registry_token))
      if env.loginResult.returncode ≠ 0 then
        finish none (yieldLog (appendMsg s ("Failed to authenticate with " ++ registry_url ++ ": " ++ env.loginResult.stderr) ("error")))
      else
        let s := yieldLog (appendMsg s ("Successfully authenticated with " ++ registry_url) ("success"))
        let temp_dir := env.tempDir
        let s := emit s (Event.mkdtemp temp_dir)
        let s := yieldLog (appendMsg s ("Created temporary directory: " ++ temp_dir) ("info"))
        let s := yieldLog (appendMsg s ("Cloning repository: " ++ req.repo_url) ("info"))
        let s := emit s (Event.runProc (clone_cmd req temp_dir) none)
        if env.cloneResult.returncode ≠ 0 then
          finish (some temp_dir) (yieldLog (appendMsg s ("Failed to clone repository: " ++ env.cloneResult.stderr) ("error")))
        else
          let s := yieldLog (appendMsg s ("Repository cloned successfully") ("success"))
          let s := appendMsg s ("Changing to repository directory: " ++ temp_dir) ("info")
          let s := { (emit s (Event.chdir temp_dir)) with cwd := temp_dir }
          let s := yieldLog s
          if env.dockerfileExists = false then
            finish (some temp_dir) (yieldLog (appendMsg s ("No Dockerfile found in the specified subdirectory: " ++ req.dockerfile_subdir) ("error")))
          else
            let s := yieldLog (appendMsg s ("Dockerfile found in " ++ req.dockerfile_subdir) ("success"))
            let s := yieldLog (appendMsg s ("Building Docker image: " ++ full_image_name) ("info"))
            let s := emit s (Event.runProc (build_cmd req gh_username temp_dir) none)
            if env.buildResult.returncode ≠ 0 then
              finish (some temp_dir) (yieldLog (appendMsg s ("Failed to build Docker image: " ++ env.buildResult.stderr) ("error")))
            else
              let s := yieldLog (appendMsg s ("Docker image built successfully") ("success"))
              let s := yieldLog (appendMsg s ("Pushing Docker image to " ++ registry_url ++ "...") ("info"))
              let s := emit s (Event.runProc (push_cmd req gh_username) none)
              if env.pushResult.returncode ≠ 0 then
                finish (some temp_dir) (yieldLog (appendMsg s ("Failed to push Docker image: " ++ env.pushResult.stderr) ("error")))
              else
                let s := yieldLog (appendMsg s ("Successfully built and pushed image: " ++ full_image_name) ("success"))
                let s := yieldLog (appendMsg s ("Build process completed successfully!") ("success"))
                finish (some temp_dir) s

/- ----------------------------------------------------------------------
Named log entries, and normalization of the run on each of its branches.
---------------------------------------------------------------------- -/
/-- "Invalid image name: ..." error entry (line 84). -/
def eInvalid (req : Request) : Entry :=
  Entry.mk ("Invalid image name: " ++ (validate_image_name req.image_name).2) ("error")

/-- Generic "Error: ..." entry from the outer exception handler (line 186). -/
def eInternal (msg : String) : Entry :=
  Entry.mk ("Error: " ++ msg) ("error")

/-- "Starting build process ..." info entry (line 97). -/
def eStart (req : Request) (u : String) : Entry :=
  Entry.mk ("Starting build process for " ++ full_image_name_of req u ++ "...") ("info")

/-- "Authenticating ..." info entry (line 98). -/
def eAuth (req : Request) : Entry :=
  Entry.mk ("Authenticating with " ++ registry_url_of req ++ "...") ("info")

/-- "Failed to authenticate ..." error entry (line 108). -/
def eAuthFail (req : Request) (env : Env) : Entry :=
  Entry.mk ("Failed to authenticate with " ++ registry_url_of req ++ ": " ++ env.loginResult.stderr) ("error")

/-- "Successfully authenticated ..." success entry (line 112). -/
def eAuthOk (req : Request) : Entry :=
  Entry.mk ("Successfully authenticated with " ++ registry_url_of req) ("success")

/-- "Created temporary directory ..." info entry (line 117). -/
def eTemp (env : Env) : Entry :=
  Entry.mk ("Created temporary directory: " ++ env.tempDir) ("info")

/-- "Cloning repository ..." info entry (line 121). -/
def eCloning (req : Request) : Entry :=
  Entry.mk ("Cloning repository: " ++ req.repo_url) ("info")

/-- "Failed to clone ..." error entry (line 127). -/
def eCloneFail (env : Env) : Entry :=
  Entry.mk ("Failed to clone repository: " ++ env.cloneResult.stderr) ("error")

/-- "Repository cloned successfully" success entry (line 131). -/
def eCloneOk : Entry :=
  Entry.mk ("Repository cloned successfully") ("success")

/-- "Changing to repository directory ..." info entry (line 135). -/
def eChdir (env : Env) : Entry :=
  Entry.mk ("Changing to repository directory: " ++ env.tempDir) ("info")

/-- "No Dockerfile found ..." error entry (line 143). -/
def eNoDocker (req : Request) : Entry :=
  Entry.mk ("No Dockerfile found in the specified subdirectory: " ++ req.dockerfile_subdir) ("error")

/-- "Dockerfile found ..." success entry (line 147). -/
def eDockerOk (req : Request) : Entry :=
  Entry.mk ("Dockerfile found in " ++ req.dockerfile_subdir) ("success")

/-- "Building Docker image ..." info entry (line 152). -/
def eBuilding (req : Request) (u : String) : Entry :=
  Entry.mk ("Building Docker image: " ++ full_image_name_of req u) ("info")

/-- "Failed to build ..." error entry (line 160). -/
def eBuildFail (env : Env) : Entry :=
  Entry.mk ("Failed to build Docker image: " ++ env.buildResult.stderr) ("error")

/-- "Docker image built successfully" success entry (line 164). -/
def eBuildOk : Entry :=
  Entry.mk ("Docker image built successfully") ("success")

/-- "Pushing Docker image ..." info entry (line 168). -/
def ePushing (req : Request) : Entry :=
  Entry.mk ("Pushing Docker image to " ++ registry_url_of req ++ "...") ("info")

/-- "Failed to push ..." error entry (line 174). -/
def ePushFail (env : Env) : Entry :=
  Entry.mk ("Failed to push Docker image: " ++ env.pushResult.stderr) ("error")

/-- "Successfully built and pushed ..." success entry (line 178). -/
def ePushOk (req : Request) (u : String) : Entry :=
  Entry.mk ("Successfully built and pushed image: " ++ full_image_name_of req u) ("success")

/-- "Build process completed successfully!" success entry (line 181). -/
def eDone : Entry :=
  Entry.mk ("Build process completed successfully!") ("success")

/-- "Cleaned up temporary directory ..." info entry (line 195). -/
def eCleanup (env : Env) : Entry :=
  Entry.mk ("Cleaned up temporary directory: " ++ env.tempDir) ("info")

/-- The cumulative snapshot sequence produced by appending the entries of `l`
one by one to the accumulated log `acc`, yielding after each append.  Every
branch of the run yields exactly one snapshot per appended entry, so its
snapshot list is `cum [] finalLog`. -/
def cum (acc : List Entry) : List Entry → List (List Entry)
  | [] => []
  | e :: es => (acc ++ [e]) :: cum (acc ++ [e]) es

/- ----------------------------------------------------------------------
Observations over run outputs used by the claims.
---------------------------------------------------------------------- -/
/-- How many times the trace creates the transient directory `d`. -/
def countMkdtemp (d : String) : List Event → Nat
  | [] => 0
  | Event.mkdtemp x :: es => (if x = d then 1 else 0) + countMkdtemp d es
  | _ :: es => countMkdtemp d es

/-- How many times the trace removes the directory tree `d`. -/
def countRmtree (d : String) : List Event → Nat
  | [] => 0
  | Event.rmtree x :: es => (if x = d then 1 else 0) + countRmtree d es
  | _ :: es => countRmtree d es

/-- The argument lists of the external process invocations of a trace, in
order. -/
def procCalls : List Event → List (List String)
  | [] => []
  | Event.runProc c _ :: es => c :: procCalls es
  | _ :: es => procCalls es

/-- Erase the stdin channel of process events, keeping everything else. -/
def scrubStdin : Event → Event
  | Event.runProc c _ => Event.runProc c none
  | e => e

/-- Number of entries with severity "error" in a log. -/
def errorEntryCount : List Entry → Nat
  | [] => 0
  | e :: es => (if e.status = "error" then 1 else 0) + errorEntryCount es

/-- The run reaches the terminal success: the name validates, the namespace
resolves, all four external calls exit 0 and the Dockerfile is present. -/
def successRun (req : Request) (env : Env) : Prop :=
  (validate_image_name req.image_name).1 = true ∧
  (∃ u, usernameResolve req = Except.ok u) ∧
  env.loginResult.returncode = 0 ∧
  env.cloneResult.returncode = 0 ∧
  env.dockerfileExists = true ∧
  env.buildResult.returncode = 0 ∧
  env.pushResult.returncode = 0

/- ----------------------------------------------------------------------
C3: the log culminates in a success or error marker (amended: the final
cleanup notice may follow the marker).
---------------------------------------------------------------------- -/
/-- The status of the marker entry a log culminates in: the status of the last
entry, except that a trailing "info" entry (the teardown notice, the only
entry ever appended after the terminal marker) is skipped. -/
def culminatingStatus (l : List Entry) : Option String :=
  match l.getLast? with
  | some e => if e.status = "info" then (l.dropLast.getLast?).map Entry.status else some e.status
  | none => none

/-- A concrete well-formed request: GHCR registry, valid name, no override. -/
def reqDemo : Request :=
  Request.mk ("https://github.com/alice/app.git") ("tok123") ("my-app") none
    ("GitHub Container Registry (GHCR)") (".")

/-- A concrete environment in which every external call succeeds. -/
def envAllOk : Env :=
  Env.mk (ProcResult.mk 0 "") (ProcResult.mk 0 "") (ProcResult.mk 0 "") (ProcResult.mk 0 "")
    ("/tmp/build") true

/- ----------------------------------------------------------------------
C5: validate_image_name versus the spec's anchored pattern.
---------------------------------------------------------------------- -/
/-- Modelled from the spec's words: a name "must match
`^[a-z0-9][a-z0-9._-]*[a-z0-9]$`" read as a full anchored match — length at
least two, first and last characters lowercase alphanumerics, every character
a lowercase alphanumeric or one of the separators.  (No trailing-newline
allowance; that is Python's `$` quirk, not the spec's pattern.) -/
def specNameOk (s : String) : Bool :=
  let l := s.toList
  decide (2 ≤ l.length) &&
    (match l.head? with | some c => isLowerAlnum c | none => false) &&
    (match l.getLast? with | some c => isLowerAlnum c | none => false) &&
    l.all (fun c => isLowerAlnum c || isNameSep c)

/- ----------------------------------------------------------------------
C6 and C7: namespace resolution.
---------------------------------------------------------------------- -/
/-- Modelled from the spec: for an SSH-style location `host:account/repo(.git)?`
the namespace is the substring between the first `:` and the following `/`;
`none` when the location is not of that form. -/
def specSSHNamespace (s : String) : Option String :=
  let l := s.toList
  let after := (l.dropWhile (fun c => c ≠ ':')).drop 1
  if l.contains (':') && after.contains ('/') then
    some (String.mk (after.takeWhile (fun c => c ≠ '/')))
  else none

/-- Modelled from the spec: URL-style locations `scheme://host/account/repo`
are recognized by a `://` separator. -/
def hasSchemeSep : List Char → Bool
  | (':') :: ('/') :: ('/') :: _ => true
  | _ :: rest => hasSchemeSep rest
  | [] => false

/- ----------------------------------------------------------------------
Concrete witnesses exercising the hypotheses of the claim theorems.
---------------------------------------------------------------------- -/
/-- A concrete environment in which the clone step fails. -/
def envCloneFail : Env :=
  Env.mk (ProcResult.mk 0 "") (ProcResult.mk 1 "repository not found") (ProcResult.mk 0 "")
    (ProcResult.mk 0 "") ("/tmp/build") true

/-- A concrete request whose image name fails validation. -/
def reqBadName : Request :=
  Request.mk ("https://github.com/alice/app.git") ("tok123") ("My App") none
    ("GitHub Container Registry (GHCR)") (".")

/-- The color table of `format_status_message` (app.py lines 27-32), with the
"info" color as the default for unknown severities. -/
def statusColor (status : String) : String :=
  if status = "info" then "#2196F3"
  else if status = "success" then "#4CAF50"
  else if status = "error" then "#F44336"
  else "#2196F3"

/-- The HTML line `format_status_message` produces for one entry, given the
timestamp string the clock returned at the time of the append (app.py
line 34). -/
def renderEntry (timestamp : String) (e : Entry) : String :=
  "<div style=\"color: " ++ statusColor e.status ++
    "; margin: 5px 0; font-family: monospace;\"><span style=\"color: #666;\">[" ++
    timestamp ++ "]</span> " ++ e.message ++ "</div>"

/-- app.py `_format_log` (lines 198-199): the snapshot HTML wrapping the
joined rendered entries. -/
def format_log (rendered : List String) : String :=
  "<div style=\"background-color: #1E1E1E; padding: 15px; border-radius: 5px; border: 1px solid #333; font-family: monospace;\">" ++
    String.join rendered ++ "</div>"

theorem run_invalidName (req : Request) (cwd : String) (env : Env)
    (hv : (validate_image_name req.image_name).1 = false) :
    build_and_push_image req cwd env =
      RunOutput.mk (cum [] [eInvalid req]) [Event.chdir cwd] cwd := by
  simp [build_and_push_image, finallyBlock, yieldLog, appendMsg, emit, cum, eInvalid, hv]

theorem run_resolveErr (req : Request) (cwd : String) (env : Env) (e : String)
    (hv : (validate_image_name req.image_name).1 = true)
    (hr : usernameResolve req = Except.error e) :
    build_and_push_image req cwd env =
      RunOutput.mk (cum [] [eInternal e]) [Event.chdir cwd] cwd := by
  simp [build_and_push_image, finallyBlock, yieldLog, appendMsg, emit, cum, eInternal, hv, hr]

theorem run_loginFail (req : Request) (cwd : String) (env : Env) (u : String)
    (hv : (validate_image_name req.image_name).1 = true)
    (hr : usernameResolve req = Except.ok u)
    (hl : env.loginResult.returncode ≠ 0) :
    build_and_push_image req cwd env =
      RunOutput.mk (cum [] [eStart req u, eAuth req, eAuthFail req env])
        [Event.runProc (login_cmd req u) (some req.registry_token), Event.chdir cwd] cwd := by
  simp [build_and_push_image, finallyBlock, yieldLog, appendMsg, emit, cum,
    eStart, eAuth, eAuthFail, hv, hr, hl]

theorem run_cloneFail (req : Request) (cwd : String) (env : Env) (u : String)
    (hv : (validate_image_name req.image_name).1 = true)
    (hr : usernameResolve req = Except.ok u)
    (hl : env.loginResult.returncode = 0)
    (hc : env.cloneResult.returncode ≠ 0) :
    build_and_push_image req cwd env =
      RunOutput.mk
        (cum [] [eStart req u, eAuth req, eAuthOk req, eTemp env, eCloning req,
          eCloneFail env, eCleanup env])
        [Event.runProc (login_cmd req u) (some req.registry_token),
         Event.mkdtemp env.tempDir,
         Event.runProc (clone_cmd req env.tempDir) none,
         Event.chdir cwd, Event.rmtree env.tempDir] cwd := by
  simp [build_and_push_image, finallyBlock, yieldLog, appendMsg, emit, cum,
    eStart, eAuth, eAuthOk, eTemp, eCloning, eCloneFail, eCleanup, hv, hr, hl, hc]

theorem run_noDockerfile (req : Request) (cwd : String) (env : Env) (u : String)
    (hv : (validate_image_name req.image_name).1 = true)
    (hr : usernameResolve req = Except.ok u)
    (hl : env.loginResult.returncode = 0)
    (hc : env.cloneResult.returncode = 0)
    (hd : env.dockerfileExists = false) :
    build_and_push_image req cwd env =
      RunOutput.mk
        (cum [] [eStart req u, eAuth req, eAuthOk req, eTemp env, eCloning req,
          eCloneOk, eChdir env, eNoDocker req, eCleanup env])
        [Event.runProc (login_cmd req u) (some req.registry_token),
         Event.mkdtemp env.tempDir,
         Event.runProc (clone_cmd req env.tempDir) none,
         Event.chdir env.tempDir,
         Event.chdir cwd, Event.rmtree env.tempDir] cwd := by
  simp [build_and_push_image, finallyBlock, yieldLog, appendMsg, emit, cum,
    eStart, eAuth, eAuthOk, eTemp, eCloning, eCloneOk, eChdir, eNoDocker, eCleanup,
    hv, hr, hl, hc, hd]

theorem run_buildFail (req : Request) (cwd : String) (env : Env) (u : String)
    (hv : (validate_image_name req.image_name).1 = true)
    (hr : usernameResolve req = Except.ok u)
    (hl : env.loginResult.returncode = 0)
    (hc : env.cloneResult.returncode = 0)
    (hd : env.dockerfileExists = true)
    (hb : env.buildResult.returncode ≠ 0) :
    build_and_push_image req cwd env =
      RunOutput.mk
        (cum [] [eStart req u, eAuth req, eAuthOk req, eTemp env, eCloning req,
          eCloneOk, eChdir env, eDockerOk req, eBuilding req u, eBuildFail env, eCleanup env])
        [Event.runProc (login_cmd req u) (some req.registry_token),
         Event.mkdtemp env.tempDir,
         Event.runProc (clone_cmd req env.tempDir) none,
         Event.chdir env.tempDir,
         Event.runProc (build_cmd req u env.tempDir) none,
         Event.chdir cwd, Event.rmtree env.tempDir] cwd := by
  simp [build_and_push_image, finallyBlock, yieldLog, appendMsg, emit, cum,
    eStart, eAuth, eAuthOk, eTemp, eCloning, eCloneOk, eChdir, eDockerOk, eBuilding,
    eBuildFail, eCleanup, hv, hr, hl, hc, hd, hb]

theorem run_pushFail (req : Request) (cwd : String) (env : Env) (u : String)
    (hv : (validate_image_name req.image_name).1 = true)
    (hr : usernameResolve req = Except.ok u)
    (hl : env.loginResult.returncode = 0)
    (hc : env.cloneResult.returncode = 0)
    (hd : env.dockerfileExists = true)
    (hb : env.buildResult.returncode = 0)
    (hp : env.pushResult.returncode ≠ 0) :
    build_and_push_image req cwd env =
      RunOutput.mk
        (cum [] [eStart req u, eAuth req, eAuthOk req, eTemp env, eCloning req,
          eCloneOk, eChdir env, eDockerOk req, eBuilding req u, eBuildOk, ePushing req,
          ePushFail env, eCleanup env])
        [Event.runProc (login_cmd req u) (some req.registry_token),
         Event.mkdtemp env.tempDir,
         Event.runProc (clone_cmd req env.tempDir) none,
         Event.chdir env.tempDir,
         Event.runProc (build_cmd req u env.tempDir) none,
         Event.runProc (push_cmd req u) none,
         Event.chdir cwd, Event.rmtree env.tempDir] cwd := by
  simp [build_and_push_image, finallyBlock, yieldLog, appendMsg, emit, cum,
    eStart, eAuth, eAuthOk, eTemp, eCloning, eCloneOk, eChdir, eDockerOk, eBuilding,
    eBuildOk, ePushing, ePushFail, eCleanup, hv, hr, hl, hc, hd, hb, hp]

theorem run_success (req : Request) (cwd : String) (env : Env) (u : String)
    (hv : (validate_image_name req.image_name).1 = true)
    (hr : usernameResolve req = Except.ok u)
    (hl : env.loginResult.returncode = 0)
    (hc : env.cloneResult.returncode = 0)
    (hd : env.dockerfileExists = true)
    (hb : env.buildResult.returncode = 0)
    (hp : env.pushResult.returncode = 0) :
    build_and_push_image req cwd env =
      RunOutput.mk
        (cum [] [eStart req u, eAuth req, eAuthOk req, eTemp env, eCloning req,
          eCloneOk, eChdir env, eDockerOk req, eBuilding req u, eBuildOk, ePushing req,
          ePushOk req u, eDone, eCleanup env])
        [Event.runProc (login_cmd req u) (some req.registry_token),
         Event.mkdtemp env.tempDir,
         Event.runProc (clone_cmd req env.tempDir) none,
         Event.chdir env.tempDir,
         Event.runProc (build_cmd req u env.tempDir) none,
         Event.runProc (push_cmd req u) none,
         Event.chdir cwd, Event.rmtree env.tempDir] cwd := by
  simp [build_and_push_image, finallyBlock, yieldLog, appendMsg, emit, cum,
    eStart, eAuth, eAuthOk, eTemp, eCloning, eCloneOk, eChdir, eDockerOk, eBuilding,
    eBuildOk, ePushing, ePushOk, eDone, eCleanup, hv, hr, hl, hc, hd, hb, hp]

/- ----------------------------------------------------------------------
Generic facts about cumulative snapshot sequences, and a case eliminator
covering the eight control-flow branches of the run.
---------------------------------------------------------------------- -/
theorem cum_head? (acc : List Entry) (e : Entry) (l : List Entry) :
    (cum acc (e :: l)).head? = some (acc ++ [e]) := by
  simp [cum]

theorem cum_chain (acc : List Entry) (l : List Entry) :
    List.Chain' (fun a b => a <+: b) (cum acc l) := by
  induction l generalizing acc with
  | nil => simp [cum]
  | cons e es ih =>
    rw [cum, List.chain'_cons']
    refine ⟨?_, ih (acc ++ [e])⟩
    intro b hb
    cases es with
    | nil => simp [cum] at hb
    | cons f fs =>
      rw [cum_head?] at hb
      cases hb
      exact ⟨[f], by simp⟩

theorem cum_ne_nil (acc : List Entry) (e : Entry) (l : List Entry) :
    cum acc (e :: l) ≠ [] := by
  simp [cum]

theorem cum_getLast? (acc : List Entry) (e : Entry) (l : List Entry) :
    (cum acc (e :: l)).getLast? = some (acc ++ e :: l) := by
  induction l generalizing acc e with
  | nil => simp [cum]
  | cons f fs ih =>
    have h1 : cum acc (e :: f :: fs) = (acc ++ [e]) :: cum (acc ++ [e]) (f :: fs) := by
      simp [cum]
    have h2 : cum (acc ++ [e]) (f :: fs) =
        ((acc ++ [e]) ++ [f]) :: cum ((acc ++ [e]) ++ [f]) fs := by
      simp [cum]
    rw [h1, h2, List.getLast?_cons_cons, ← h2, ih (acc ++ [e]) f]
    simp

theorem cum_mem_le (acc : List Entry) (l : List Entry) :
    ∀ s ∈ cum acc l, s <+: acc ++ l := by
  induction l generalizing acc with
  | nil => simp [cum]
  | cons e es ih =>
    intro s hs
    simp only [cum, List.mem_cons] at hs
    rcases hs with hs | hs
    · subst hs
      exact ⟨es, by simp⟩
    · have h := ih (acc ++ [e]) s hs
      simpa using h

/-- Every run of `build_and_push_image` takes one of eight control-flow paths:
invalid image name, namespace-resolution exception, login failure, clone
failure, missing Dockerfile, build failure, push failure, or full success.
This eliminator hands each path's literal output to the property being
proved. -/
theorem run_cases (req : Request) (cwd : String) (env : Env) (P : RunOutput → Prop)
    (h1 : (validate_image_name req.image_name).1 = false →
      P (RunOutput.mk (cum [] [eInvalid req]) [Event.chdir cwd] cwd))
    (h2 : ∀ e, (validate_image_name req.image_name).1 = true →
      usernameResolve req = Except.error e →
      P (RunOutput.mk (cum [] [eInternal e]) [Event.chdir cwd] cwd))
    (h3 : ∀ u, (validate_image_name req.image_name).1 = true →
      usernameResolve req = Except.ok u → env.loginResult.returncode ≠ 0 →
      P (RunOutput.mk (cum [] [eStart req u, eAuth req, eAuthFail req env])
        [Event.runProc (login_cmd req u) (some req.registry_token), Event.chdir cwd] cwd))
    (h4 : ∀ u, (validate_image_name req.image_name).1 = true →
      usernameResolve req = Except.ok u → env.loginResult.returncode = 0 →
      env.cloneResult.returncode ≠ 0 →
      P (RunOutput.mk
        (cum [] [eStart req u, eAuth req, eAuthOk req, eTemp env, eCloning req,
          eCloneFail env, eCleanup env])
        [Event.runProc (login_cmd req u) (some req.registry_token),
         Event.mkdtemp env.tempDir,
         Event.runProc (clone_cmd req env.tempDir) none,
         Event.chdir cwd, Event.rmtree env.tempDir] cwd))
    (h5 : ∀ u, (validate_image_name req.image_name).1 = true →
      usernameResolve req = Except.ok u → env.loginResult.returncode = 0 →
      env.cloneResult.returncode = 0 → env.dockerfileExists = false →
      P (RunOutput.mk
        (cum [] [eStart req u, eAuth req, eAuthOk req, eTemp env, eCloning req,
          eCloneOk, eChdir env, eNoDocker req, eCleanup env])
        [Event.runProc (login_cmd req u) (some req.registry_token),
         Event.mkdtemp env.tempDir,
         Event.runProc (clone_cmd req env.tempDir) none,
         Event.chdir env.tempDir,
         Event.chdir cwd, Event.rmtree env.tempDir] cwd))
    (h6 : ∀ u, (validate_image_name req.image_name).1 = true →
      usernameResolve req = Except.ok u → env.loginResult.returncode = 0 →
      env.cloneResult.returncode = 0 → env.dockerfileExists = true →
      env.buildResult.returncode ≠ 0 →
      P (RunOutput.mk
        (cum [] [eStart req u, eAuth req, eAuthOk req, eTemp env, eCloning req,
          eCloneOk, eChdir env, eDockerOk req, eBuilding req u, eBuildFail env, eCleanup env])
        [Event.runProc (login_cmd req u) (some req.registry_token),
         Event.mkdtemp env.tempDir,
         Event.runProc (clone_cmd req env.tempDir) none,
         Event.chdir env.tempDir,
         Event.runProc (build_cmd req u env.tempDir) none,
         Event.chdir cwd, Event.rmtree env.tempDir] cwd))
    (h7 : ∀ u, (validate_image_name req.image_name).1 = true →
      usernameResolve req = Except.ok u → env.loginResult.returncode = 0 →
      env.cloneResult.returncode = 0 → env.dockerfileExists = true →
      env.buildResult.returncode = 0 → env.pushResult.returncode ≠ 0 →
      P (RunOutput.mk
        (cum [] [eStart req u, eAuth req, eAuthOk req, eTemp env, eCloning req,
          eCloneOk, eChdir env, eDockerOk req, eBuilding req u, eBuildOk, ePushing req,
          ePushFail env, eCleanup env])
        [Event.runProc (login_cmd req u) (some req.registry_token),
         Event.mkdtemp env.tempDir,
         Event.runProc (clone_cmd req env.tempDir) none,
         Event.chdir env.tempDir,
         Event.runProc (build_cmd req u env.tempDir) none,
         Event.runProc (push_cmd req u) none,
         Event.chdir cwd, Event.rmtree env.tempDir] cwd))
    (h8 : ∀ u, (validate_image_name req.image_name).1 = true →
      usernameResolve req = Except.ok u → env.loginResult.returncode = 0 →
      env.cloneResult.returncode = 0 → env.dockerfileExists = true →
      env.buildResult.returncode = 0 → env.pushResult.returncode = 0 →
      P (RunOutput.mk
        (cum [] [eStart req u, eAuth req, eAuthOk req, eTemp env, eCloning req,
          eCloneOk, eChdir env, eDockerOk req, eBuilding req u, eBuildOk, ePushing req,
          ePushOk req u, eDone, eCleanup env])
        [Event.runProc (login_cmd req u) (some req.registry_token),
         Event.mkdtemp env.tempDir,
         Event.runProc (clone_cmd req env.tempDir) none,
         Event.chdir env.tempDir,
         Event.runProc (build_cmd req u env.tempDir) none,
         Event.runProc (push_cmd req u) none,
         Event.chdir cwd, Event.rmtree env.tempDir] cwd)) :
    P (build_and_push_image req cwd env) := by
  cases hv : (validate_image_name req.image_name).1 with
  | false => rw [run_invalidName req cwd env hv]; exact h1 hv
  | true =>
    cases hr : usernameResolve req with
    | error e => rw [run_resolveErr req cwd env e hv hr]; exact h2 e hv hr
    | ok u =>
      by_cases hl : env.loginResult.returncode = 0
      · by_cases hc : env.cloneResult.returncode = 0
        · cases hd : env.dockerfileExists with
          | false =>
            rw [run_noDockerfile req cwd env u hv hr hl hc hd]
            exact h5 u hv hr hl hc hd
          | true =>
            by_cases hb : env.buildResult.returncode = 0
            · by_cases hp : env.pushResult.returncode = 0
              · rw [run_success req cwd env u hv hr hl hc hd hb hp]
                exact h8 u hv hr hl hc hd hb hp
              · rw [run_pushFail req cwd env u hv hr hl hc hd hb hp]
                exact h7 u hv hr hl hc hd hb hp
            · rw [run_buildFail req cwd env u hv hr hl hc hd hb]
              exact h6 u hv hr hl hc hd hb
        · rw [run_cloneFail req cwd env u hv hr hl hc]
          exact h4 u hv hr hl hc
      · rw [run_loginFail req cwd env u hv hr hl]
        exact h3 u hv hr hl

/- ----------------------------------------------------------------------
C1: workspace teardown happens exactly once per run.
---------------------------------------------------------------------- -/
/-- C1: in every run, the transient directory is created at most once, it is
removed exactly as many times as it is created (so exactly once when created,
and removal happens on no other path), and whenever it was created the final
yielded snapshot ends with the cleanup entry — the removal precedes the last
snapshot, after which the directory no longer exists. -/
theorem c1_workspace_removed_exactly_once (req : Request) (cwd : String) (env : Env) :
    countMkdtemp env.tempDir (build_and_push_image req cwd env).events ≤ 1 ∧
    countRmtree env.tempDir (build_and_push_image req cwd env).events =
      countMkdtemp env.tempDir (build_and_push_image req cwd env).events ∧
    (0 < countMkdtemp env.tempDir (build_and_push_image req cwd env).events →
      ∃ fin, (build_and_push_image req cwd env).snapshots.getLast? = some fin ∧
        fin.getLast? = some (eCleanup env)) := by
  refine run_cases req cwd env (fun out =>
    countMkdtemp env.tempDir out.events ≤ 1 ∧
    countRmtree env.tempDir out.events = countMkdtemp env.tempDir out.events ∧
    (0 < countMkdtemp env.tempDir out.events →
      ∃ fin, out.snapshots.getLast? = some fin ∧ fin.getLast? = some (eCleanup env)))
    ?_ ?_ ?_ ?_ ?_ ?_ ?_ ?_ <;> intros <;>
    refine ⟨by simp [countMkdtemp], by simp [countMkdtemp, countRmtree], fun h => ?_⟩ <;>
    first
      | (simp [countMkdtemp] at h; done)
      | (refine ⟨_, cum_getLast? [] _ _, ?_⟩; simp; done)

/- ----------------------------------------------------------------------
C2: the log is append-only and monotone across snapshots.
---------------------------------------------------------------------- -/
/-- C2: within one run, each yielded snapshot extends the previous one — for
every pair of consecutive snapshots the earlier is a list-prefix of the later,
and hence the entry count never decreases. -/
theorem c2_log_append_only (req : Request) (cwd : String) (env : Env) :
    List.Chain' (fun a b => a <+: b) (build_and_push_image req cwd env).snapshots ∧
    List.Chain' (fun a b => a.length ≤ b.length) (build_and_push_image req cwd env).snapshots := by
  refine run_cases req cwd env (fun out =>
    List.Chain' (fun a b => a <+: b) out.snapshots ∧
    List.Chain' (fun a b => a.length ≤ b.length) out.snapshots)
    ?_ ?_ ?_ ?_ ?_ ?_ ?_ ?_ <;> intros <;>
    exact ⟨cum_chain _ _, (cum_chain _ _).imp (fun a b h => h.length_le)⟩

/- ----------------------------------------------------------------------
C10: the working directory is restored on every exit path.
---------------------------------------------------------------------- -/
/-- C10: although the run changes the process working directory into the
workspace after a successful clone, on every exit path the `finally` block
restores it, so the final working directory equals the pre-run one. -/
theorem c10_cwd_restored (req : Request) (cwd : String) (env : Env) :
    (build_and_push_image req cwd env).finalCwd = cwd := by
  refine run_cases req cwd env (fun out => out.finalCwd = cwd)
    ?_ ?_ ?_ ?_ ?_ ?_ ?_ ?_ <;> intros <;> rfl

/-- C3 (amended): every run yields at least one snapshot; every snapshot is a
list-prefix of the final one (partial progress before a failure remains
visible); skipping the trailing workspace-cleanup info entry when present, the
final snapshot culminates in the success marker exactly on the success path
and in a single explanatory error marker on every failure path (exactly one
"error" entry in the whole final log). -/
theorem c3_log_culminates_in_marker (req : Request) (cwd : String) (env : Env) :
    ∃ fin, (build_and_push_image req cwd env).snapshots.getLast? = some fin ∧
      (∀ s ∈ (build_and_push_image req cwd env).snapshots, s <+: fin) ∧
      (successRun req env →
        culminatingStatus fin = some ("success") ∧ errorEntryCount fin = 0) ∧
      (¬ successRun req env →
        culminatingStatus fin = some ("error") ∧ errorEntryCount fin = 1) := by
  refine run_cases req cwd env (fun out =>
    ∃ fin, out.snapshots.getLast? = some fin ∧
      (∀ s ∈ out.snapshots, s <+: fin) ∧
      (successRun req env →
        culminatingStatus fin = some ("success") ∧ errorEntryCount fin = 0) ∧
      (¬ successRun req env →
        culminatingStatus fin = some ("error") ∧ errorEntryCount fin = 1))
    ?_ ?_ ?_ ?_ ?_ ?_ ?_ ?_
  · intro hv
    refine ⟨_, cum_getLast? [] _ _, cum_mem_le _ _,
      fun hs => absurd hs.1 (by simp [hv]), fun _ => ?_⟩
    simp [culminatingStatus, errorEntryCount, eInvalid]
  · intro e hv hr
    refine ⟨_, cum_getLast? [] _ _, cum_mem_le _ _,
      fun hs => by obtain ⟨u, hu⟩ := hs.2.1; rw [hr] at hu; simp at hu, fun _ => ?_⟩
    simp [culminatingStatus, errorEntryCount, eInternal]
  · intro u hv hr hl
    refine ⟨_, cum_getLast? [] _ _, cum_mem_le _ _,
      fun hs => absurd hs.2.2.1 hl, fun _ => ?_⟩
    simp [culminatingStatus, errorEntryCount, eStart, eAuth, eAuthFail]
  · intro u hv hr hl hc
    refine ⟨_, cum_getLast? [] _ _, cum_mem_le _ _,
      fun hs => absurd hs.2.2.2.1 hc, fun _ => ?_⟩
    simp [culminatingStatus, errorEntryCount, eStart, eAuth, eAuthOk, eTemp, eCloning,
      eCloneFail, eCleanup]
  · intro u hv hr hl hc hd
    refine ⟨_, cum_getLast? [] _ _, cum_mem_le _ _,
      fun hs => by have h := hs.2.2.2.2.1; rw [hd] at h; simp at h, fun _ => ?_⟩
    simp [culminatingStatus, errorEntryCount, eStart, eAuth, eAuthOk, eTemp, eCloning,
      eCloneOk, eChdir, eNoDocker, eCleanup]
  · intro u hv hr hl hc hd hb
    refine ⟨_, cum_getLast? [] _ _, cum_mem_le _ _,
      fun hs => absurd hs.2.2.2.2.2.1 hb, fun _ => ?_⟩
    simp [culminatingStatus, errorEntryCount, eStart, eAuth, eAuthOk, eTemp, eCloning,
      eCloneOk, eChdir, eDockerOk, eBuilding, eBuildFail, eCleanup]
  · intro u hv hr hl hc hd hb hp
    refine ⟨_, cum_getLast? [] _ _, cum_mem_le _ _,
      fun hs => absurd hs.2.2.2.2.2.2 hp, fun _ => ?_⟩
    simp [culminatingStatus, errorEntryCount, eStart, eAuth, eAuthOk, eTemp, eCloning,
      eCloneOk, eChdir, eDockerOk, eBuilding, eBuildOk, ePushing, ePushFail, eCleanup]
  · intro u hv hr hl hc hd hb hp
    refine ⟨_, cum_getLast? [] _ _, cum_mem_le _ _, fun _ => ?_,
      fun hns => absurd ⟨hv, ⟨u, hr⟩, hl, hc, hd, hb, hp⟩ hns⟩
    simp [culminatingStatus, errorEntryCount, eStart, eAuth, eAuthOk, eTemp, eCloning,
      eCloneOk, eChdir, eDockerOk, eBuilding, eBuildOk, ePushing, ePushOk, eDone, eCleanup]

/-- C3 as stated is false on the code: on a concrete full-success run the
final entry of the last yielded snapshot is the workspace-cleanup "info"
entry appended by the `finally` block, not the success marker. -/
theorem c3_counterexample :
    successRun reqDemo envAllOk ∧
    ((build_and_push_image reqDemo ("/home/user") envAllOk).snapshots.getLast?.map
        (fun fin => fin.getLast?)) =
      some (some (Entry.mk ("Cleaned up temporary directory: /tmp/build") ("info"))) := by
  refine ⟨⟨by decide, ⟨"alice", by rfl⟩, rfl, rfl, rfl, rfl, rfl⟩, by decide⟩

/- ----------------------------------------------------------------------
C4: a failure at any step prevents every later external call.
---------------------------------------------------------------------- -/
/-- C4: if validation rejects the name or namespace resolution raises, no
external process runs at all; if login fails, the only external call is the
login; if clone fails or the Dockerfile is missing, the calls are exactly
login and clone (no build, no push); if the build fails, the calls are exactly
login, clone and build (no push). -/
theorem c4_failure_prevents_later_calls (req : Request) (cwd : String) (env : Env) :
    ((validate_image_name req.image_name).1 = false →
      procCalls (build_and_push_image req cwd env).events = []) ∧
    (∀ e, usernameResolve req = Except.error e →
      procCalls (build_and_push_image req cwd env).events = []) ∧
    (∀ u, (validate_image_name req.image_name).1 = true →
      usernameResolve req = Except.ok u →
      (env.loginResult.returncode ≠ 0 →
        procCalls (build_and_push_image req cwd env).events = [login_cmd req u]) ∧
      (env.loginResult.returncode = 0 → env.cloneResult.returncode ≠ 0 →
        procCalls (build_and_push_image req cwd env).events =
          [login_cmd req u, clone_cmd req env.tempDir]) ∧
      (env.loginResult.returncode = 0 → env.cloneResult.returncode = 0 →
        env.dockerfileExists = false →
        procCalls (build_and_push_image req cwd env).events =
          [login_cmd req u, clone_cmd req env.tempDir]) ∧
      (env.loginResult.returncode = 0 → env.cloneResult.returncode = 0 →
        env.dockerfileExists = true → env.buildResult.returncode ≠ 0 →
        procCalls (build_and_push_image req cwd env).events =
          [login_cmd req u, clone_cmd req env.tempDir, build_cmd req u env.tempDir])) := by
  refine ⟨?_, ?_, ?_⟩
  · intro hv
    rw [run_invalidName req cwd env hv]
    simp [procCalls]
  · intro e hr
    cases hx : (validate_image_name req.image_name).1 with
    | false =>
      rw [run_invalidName req cwd env hx]
      simp [procCalls]
    | true =>
      rw [run_resolveErr req cwd env e hx hr]
      simp [procCalls]
  · intro u hv hr
    refine ⟨?_, ?_, ?_, ?_⟩
    · intro hl
      rw [run_loginFail req cwd env u hv hr hl]
      simp [procCalls]
    · intro hl hc
      rw [run_cloneFail req cwd env u hv hr hl hc]
      simp [procCalls]
    · intro hl hc hd
      rw [run_noDockerfile req cwd env u hv hr hl hc hd]
      simp [procCalls]
    · intro hl hc hd hb
      rw [run_buildFail req cwd env u hv hr hl hc hd hb]
      simp [procCalls]

/- ----------------------------------------------------------------------
C8: the fully qualified image reference.
---------------------------------------------------------------------- -/
/-- C8: for an accepted request the fully qualified image reference is a pure
function of the request and resolved namespace alone (so it is fixed before
any external call and never changes): `ghcr.io/{namespace}/{name}` for the
GHCR selector and `{namespace}/{name}` for Docker Hub; and every external
process invocation of the run uses one of the four commands built from that
single reference. -/
theorem c8_resolved_reference (req : Request) (cwd : String) (env : Env) (u : String)
    (hv : (validate_image_name req.image_name).1 = true)
    (hr : usernameResolve req = Except.ok u) :
    (req.registry = "GitHub Container Registry (GHCR)" →
      full_image_name_of req u = "ghcr.io/" ++ u ++ "/" ++ req.image_name) ∧
    (req.registry = "Docker Hub" →
      full_image_name_of req u = u ++ "/" ++ req.image_name) ∧
    (∀ c i, Event.runProc c i ∈ (build_and_push_image req cwd env).events →
      c = login_cmd req u ∨ c = clone_cmd req env.tempDir ∨
      c = build_cmd req u env.tempDir ∨ c = push_cmd req u) := by
  refine ⟨fun h => by simp [full_image_name_of, h], fun h => by simp [full_image_name_of, h], ?_⟩
  refine run_cases req cwd env (fun out =>
    ∀ c i, Event.runProc c i ∈ out.events →
      c = login_cmd req u ∨ c = clone_cmd req env.tempDir ∨
      c = build_cmd req u env.tempDir ∨ c = push_cmd req u)
    ?_ ?_ ?_ ?_ ?_ ?_ ?_ ?_
  · intro _ c i hm
    simp at hm
  · intro e _ _ c i hm
    simp at hm
  · intro u' _ hr' _ c i hm
    rw [hr] at hr'
    cases hr'
    simp at hm
    tauto
  · intro u' _ hr' _ _ c i hm
    rw [hr] at hr'
    cases hr'
    simp at hm
    tauto
  · intro u' _ hr' _ _ _ c i hm
    rw [hr] at hr'
    cases hr'
    simp at hm
    tauto
  · intro u' _ hr' _ _ _ _ c i hm
    rw [hr] at hr'
    cases hr'
    simp at hm
    tauto
  · intro u' _ hr' _ _ _ _ _ c i hm
    rw [hr] at hr'
    cases hr'
    simp at hm
    tauto
  · intro u' _ hr' _ _ _ _ _ c i hm
    rw [hr] at hr'
    cases hr'
    simp at hm
    tauto

/- ----------------------------------------------------------------------
C9: the credential flows only through the login call's stdin.
---------------------------------------------------------------------- -/
/-- C9: two runs differing only in the credential yield identical snapshot
sequences (so no log entry ever depends on the raw credential), identical
event traces once the stdin channel is erased (so no process argument list
depends on it), and the same final working directory; moreover the only event
carrying any stdin payload is the `docker login` invocation, whose payload is
exactly the credential. -/
theorem c9_credential_only_via_stdin (req : Request) (cwd : String) (env : Env) (t' : String) :
    (build_and_push_image { req with registry_token := t' } cwd env).snapshots =
      (build_and_push_image req cwd env).snapshots ∧
    (build_and_push_image { req with registry_token := t' } cwd env).events.map scrubStdin =
      (build_and_push_image req cwd env).events.map scrubStdin ∧
    (build_and_push_image { req with registry_token := t' } cwd env).finalCwd =
      (build_and_push_image req cwd env).finalCwd ∧
    (∀ c i, Event.runProc c (some i) ∈ (build_and_push_image req cwd env).events →
      i = req.registry_token ∧
      ∃ u, usernameResolve req = Except.ok u ∧ c = login_cmd req u) := by
  refine run_cases req cwd env (fun out =>
    (build_and_push_image { req with registry_token := t' } cwd env).snapshots = out.snapshots ∧
    (build_and_push_image { req with registry_token := t' } cwd env).events.map scrubStdin =
      out.events.map scrubStdin ∧
    (build_and_push_image { req with registry_token := t' } cwd env).finalCwd = out.finalCwd ∧
    (∀ c i, Event.runProc c (some i) ∈ out.events →
      i = req.registry_token ∧
      ∃ u, usernameResolve req = Except.ok u ∧ c = login_cmd req u))
    ?_ ?_ ?_ ?_ ?_ ?_ ?_ ?_
  · intro hv
    rw [run_invalidName { req with registry_token := t' } cwd env hv]
    refine ⟨rfl, rfl, rfl, ?_⟩
    intro c i hm
    simp at hm
  · intro e hv hr
    rw [run_resolveErr { req with registry_token := t' } cwd env e hv hr]
    refine ⟨rfl, rfl, rfl, ?_⟩
    intro c i hm
    simp at hm
  · intro u hv hr hl
    rw [run_loginFail { req with registry_token := t' } cwd env u hv hr hl]
    refine ⟨rfl, by simp [scrubStdin, login_cmd, clone_cmd, build_cmd, push_cmd, registry_url_of, full_image_name_of, dockerfile_path_of], rfl, ?_⟩
    intro c i hm
    simp at hm
    exact ⟨hm.2, u, hr, hm.1⟩
  · intro u hv hr hl hc
    rw [run_cloneFail { req with registry_token := t' } cwd env u hv hr hl hc]
    refine ⟨rfl, by simp [scrubStdin, login_cmd, clone_cmd, build_cmd, push_cmd, registry_url_of, full_image_name_of, dockerfile_path_of], rfl, ?_⟩
    intro c i hm
    simp at hm
    exact ⟨hm.2, u, hr, hm.1⟩
  · intro u hv hr hl hc hd
    rw [run_noDockerfile { req with registry_token := t' } cwd env u hv hr hl hc hd]
    refine ⟨rfl, by simp [scrubStdin, login_cmd, clone_cmd, build_cmd, push_cmd, registry_url_of, full_image_name_of, dockerfile_path_of], rfl, ?_⟩
    intro c i hm
    simp at hm
    exact ⟨hm.2, u, hr, hm.1⟩
  · intro u hv hr hl hc hd hb
    rw [run_buildFail { req with registry_token := t' } cwd env u hv hr hl hc hd hb]
    refine ⟨rfl, by simp [scrubStdin, login_cmd, clone_cmd, build_cmd, push_cmd, registry_url_of, full_image_name_of, dockerfile_path_of], rfl, ?_⟩
    intro c i hm
    simp at hm
    exact ⟨hm.2, u, hr, hm.1⟩
  · intro u hv hr hl hc hd hb hp
    rw [run_pushFail { req with registry_token := t' } cwd env u hv hr hl hc hd hb hp]
    refine ⟨rfl, by simp [scrubStdin, login_cmd, clone_cmd, build_cmd, push_cmd, registry_url_of, full_image_name_of, dockerfile_path_of], rfl, ?_⟩
    intro c i hm
    simp at hm
    exact ⟨hm.2, u, hr, hm.1⟩
  · intro u hv hr hl hc hd hb hp
    rw [run_success { req with registry_token := t' } cwd env u hv hr hl hc hd hb hp]
    refine ⟨rfl, by simp [scrubStdin, login_cmd, clone_cmd, build_cmd, push_cmd, registry_url_of, full_image_name_of, dockerfile_path_of], rfl, ?_⟩
    intro c i hm
    simp at hm
    exact ⟨hm.2, u, hr, hm.1⟩

theorem regexCore_iff_spec_list (l : List Char) :
    regexCore l = true ↔ specNameOk (String.mk l) = true := by
  rcases l with _ | ⟨c, rest⟩
  · simp [regexCore, specNameOk, String.toList]
  · rcases List.eq_nil_or_concat rest with hr | ⟨mid, lastc, hr⟩
    · subst hr
      simp [regexCore, specNameOk, String.toList]
    · subst hr
      have hgl : (c :: (mid ++ [lastc])).getLast? = some lastc := by
        rw [← List.cons_append]
        exact List.getLast?_concat _
      simp only [List.concat_eq_append]
      simp only [regexCore, specNameOk, String.toList, List.reverse_append, List.reverse_cons,
        List.reverse_nil, List.nil_append, List.singleton_append, List.all_cons,
        List.all_append, List.all_reverse, List.head?_cons, hgl, List.length_cons,
        List.length_append, List.length_nil, Bool.and_eq_true, Bool.or_eq_true,
        decide_eq_true_eq, List.all_eq_true]
      constructor
      · rintro ⟨⟨h1, h2⟩, h3⟩
        exact ⟨⟨⟨by omega, h1⟩, h2⟩, Or.inl h1, h3, Or.inl h2, by simp⟩
      · rintro ⟨⟨⟨_, h1⟩, h2⟩, _, h3, _⟩
        exact ⟨⟨h1, h2⟩, h3⟩

theorem regexCore_iff_specNameOk (s : String) :
    regexCore s.toList = true ↔ specNameOk s = true :=
  regexCore_iff_spec_list s.data

theorem specNameOk_min_length (s : String) (h : specNameOk s = true) :
    2 ≤ s.toList.length := by
  simp only [specNameOk, Bool.and_eq_true, decide_eq_true_eq] at h
  exact h.1.1.1

theorem pyRegexMatch_characterized (s : String) :
    pyRegexMatch s = true ↔
      (specNameOk s = true ∨
        (s.toList.getLast? = some ('\n') ∧ specNameOk (String.mk s.toList.dropLast) = true)) := by
  have hdrop : regexCore s.toList.dropLast = true ↔
      specNameOk (String.mk s.toList.dropLast) = true :=
    regexCore_iff_spec_list s.toList.dropLast
  rcases hgl : s.toList.getLast? with _ | c
  · simp only [pyRegexMatch, hgl, Bool.or_eq_true]
    rw [regexCore_iff_specNameOk]
    simp [hgl]
  · simp only [pyRegexMatch, hgl, Bool.or_eq_true, Bool.and_eq_true, decide_eq_true_eq]
    rw [regexCore_iff_specNameOk]
    constructor
    · rintro (h | ⟨hc, hcore⟩)
      · exact Or.inl h
      · exact Or.inr ⟨by rw [hc], hdrop.mp hcore⟩
    · rintro (h | ⟨hc, hcore⟩)
      · exact Or.inl h
      · refine Or.inr ⟨?_, hdrop.mpr hcore⟩
        injection hc

/-- C5 is refuted by the string "ab\n": Python's `$` also matches just before
a single trailing newline, so `validate_image_name` accepts a string that does
not match the anchored pattern (it ends in a newline, not an alphanumeric). -/
theorem c5_counterexample :
    validate_image_name ("ab\n") = (true, "") ∧
    specNameOk ("ab\n") = false ∧
    ("ab\n").toList.getLast? = some ('\n') := by
  refine ⟨by decide, by decide, by decide⟩

/-- C5 (amended): `validate_image_name` accepts exactly the strings matching
the anchored pattern — or such a match followed by one trailing newline,
Python's `$` semantics; every accepted name has at least two characters; every
rejection carries a non-empty reason; and the empty string gets its own
distinct reason, used for no other input. -/
theorem c5_validate_characterized (s : String) :
    ((validate_image_name s).1 = true ↔
      (specNameOk s = true ∨
        (s.toList.getLast? = some ('\n') ∧
          specNameOk (String.mk s.toList.dropLast) = true))) ∧
    ((validate_image_name s).1 = true → 2 ≤ s.toList.length) ∧
    ((validate_image_name s).1 = false → (validate_image_name s).2 ≠ "") ∧
    ((validate_image_name ("")).2 = "Image name cannot be empty") ∧
    (s ≠ "" → (validate_image_name s).2 ≠ "Image name cannot be empty") := by
  by_cases hs : s = ""
  · subst hs
    refine ⟨by decide, by decide, by decide, by decide, fun h => absurd rfl h⟩
  · have hv : (validate_image_name s).1 = true ↔ pyRegexMatch s = true := by
      simp only [validate_image_name, if_neg hs]
      cases hm : pyRegexMatch s <;> simp [hm]
    refine ⟨hv.trans (pyRegexMatch_characterized s), ?_, ?_, by decide, ?_⟩
    · intro h
      rcases (hv.trans (pyRegexMatch_characterized s)).mp h with hall | ⟨hlast, hcore⟩
      · exact specNameOk_min_length s hall
      · have h2 := specNameOk_min_length _ hcore
        have h3 : s.toList ≠ [] := by
          intro hnil
          rw [hnil] at hlast
          simp at hlast
        have h5 : (String.mk s.toList.dropLast).toList = s.toList.dropLast := rfl
        rw [h5] at h2
        have h4 := List.length_dropLast s.toList
        have h6 : 0 < s.toList.length := List.length_pos.mpr h3
        omega
    · intro h
      simp only [validate_image_name, if_neg hs] at h ⊢
      cases hm : pyRegexMatch s with
      | true => simp_all
      | false => simp_all
    · intro _
      simp only [validate_image_name, if_neg hs]
      cases hm : pyRegexMatch s <;> simp

/- ----------------------------------------------------------------------
Facts about the Python split/strip/urlparse embedding, towards C6 and C7.
---------------------------------------------------------------------- -/
theorem splitOnChar_ne_nil (c : Char) (l : List Char) : splitOnChar c l ≠ [] := by
  cases l with
  | nil => simp [splitOnChar]
  | cons x xs =>
    simp only [splitOnChar]
    split
    · simp
    · rcases hr : splitOnChar c xs with _ | ⟨y, ys⟩ <;> simp [hr]

theorem splitOnChar_cons_of_ne (c x : Char) (xs : List Char) (hx : x ≠ c) :
    ∃ y ys, splitOnChar c xs = y :: ys ∧ splitOnChar c (x :: xs) = (x :: y) :: ys := by
  rcases hr : splitOnChar c xs with _ | ⟨y, ys⟩
  · exact absurd hr (splitOnChar_ne_nil c xs)
  · exact ⟨y, ys, rfl, by simp [splitOnChar, hx, hr]⟩

theorem splitOnChar_not_mem (c : Char) (l : List Char) (h : c ∉ l) :
    splitOnChar c l = [l] := by
  induction l with
  | nil => simp [splitOnChar]
  | cons x xs ih =>
    have hx : x ≠ c := fun he => h (by simp [he])
    have hxs : c ∉ xs := fun hm => h (by simp [hm])
    simp [splitOnChar, hx, ih hxs]

theorem splitOnChar_append_first (c : Char) (l1 l2 : List Char) (h : c ∉ l1) :
    splitOnChar c (l1 ++ c :: l2) = l1 :: splitOnChar c l2 := by
  induction l1 with
  | nil => simp [splitOnChar]
  | cons x xs ih =>
    have hx : x ≠ c := fun he => h (by simp [he])
    have hxs : c ∉ xs := fun hm => h (by simp [hm])
    simp [splitOnChar, hx, ih hxs]

theorem splitOnChar_headD_append (c : Char) (l1 l2 : List Char) (h : c ∉ l1) :
    (splitOnChar c (l1 ++ l2)).headD [] = l1 ++ (splitOnChar c l2).headD [] := by
  induction l1 with
  | nil => simp
  | cons x xs ih =>
    have hx : x ≠ c := fun he => h (by simp [he])
    have hxs : c ∉ xs := fun hm => h (by simp [hm])
    obtain ⟨y, ys, hy, hcons⟩ := splitOnChar_cons_of_ne c x (xs ++ l2) hx
    rw [List.cons_append, hcons]
    have hih := ih hxs
    rw [hy] at hih
    simp only [List.headD_cons] at hih ⊢
    simp [hih]

theorem splitOnChar_headD_cons_self (c : Char) (l : List Char) :
    (splitOnChar c (c :: l)).headD [] = [] := by
  simp [splitOnChar]

theorem splitOnChar_two_le_of_mem (c : Char) (l : List Char) (h : c ∈ l) :
    2 ≤ (splitOnChar c l).length := by
  induction l with
  | nil => simp at h
  | cons x xs ih =>
    by_cases hx : x = c
    · have h1 : 0 < (splitOnChar c xs).length :=
        List.length_pos.mpr (splitOnChar_ne_nil c xs)
      simp [splitOnChar, hx]
      omega
    · have hm : c ∈ xs := by
        rcases List.mem_cons.mp h with h' | h'
        · exact absurd h'.symm hx
        · exact h'
      obtain ⟨y, ys, hy, hcons⟩ := splitOnChar_cons_of_ne c x xs hx
      rw [hcons]
      have hih := ih hm
      rw [hy] at hih
      simp at hih ⊢
      omega

theorem startsWithChars_gitAt (x : List Char) :
    startsWithChars gitAtChars (gitAtChars ++ x) = true := by
  simp [startsWithChars, gitAtChars]

/-- The git@-style SSH branch of `extract_github_username`: for any location
`git@host:account/...` (no colon in the host, no colon or slash in the
account), the function returns exactly the account, the substring between the
first colon and the following slash. -/
theorem extract_ssh_family (host acc rest : List Char)
    (hhost : (':') ∉ host) (hacc1 : (':') ∉ acc) (hacc2 : ('/') ∉ acc) :
    extract_github_username
        (String.mk (gitAtChars ++ (host ++ ((':') :: (acc ++ (('/') :: rest)))))) =
      Except.ok (String.mk acc) := by
  have hnm : (':') ∉ gitAtChars ++ host := by
    simp only [List.mem_append, gitAtChars]
    rintro (h | h)
    · simp at h
    · exact hhost h
  have hsplit : splitOnChar (':') (gitAtChars ++ (host ++ ((':') :: (acc ++ (('/') :: rest)))))
      = (gitAtChars ++ host) :: splitOnChar (':') (acc ++ (('/') :: rest)) := by
    rw [← List.append_assoc]
    exact splitOnChar_append_first _ _ _ hnm
  obtain ⟨y, ys, hy, _⟩ := splitOnChar_cons_of_ne (':') ('/') rest (by decide)
  have hhead : (splitOnChar (':') (acc ++ (('/') :: rest))).headD []
      = acc ++ (('/') :: y) := by
    rw [splitOnChar_headD_append (':') acc _ hacc1]
    obtain ⟨y', ys', hy', hcons⟩ := splitOnChar_cons_of_ne (':') ('/') rest (by decide)
    rw [hcons]
    rw [hy'] at hy
    cases hy
    simp
  rcases hs2 : splitOnChar (':') (acc ++ (('/') :: rest)) with _ | ⟨seg, segs⟩
  · exact absurd hs2 (splitOnChar_ne_nil _ _)
  · have hseg : seg = acc ++ (('/') :: y) := by
      rw [hs2] at hhead
      simpa using hhead
    simp only [extract_github_username, String.toList]
    rw [startsWithChars_gitAt]
    simp only [if_true]
    rw [hsplit]
    simp only [List.drop_succ_cons, List.drop_zero]
    rw [hs2, hseg]
    show Except.ok (String.mk ((splitOnChar ('/') (acc ++ (('/') :: y))).headD []))
      = Except.ok (String.mk acc)
    rw [splitOnChar_headD_append ('/') acc _ hacc2, splitOnChar_headD_cons_self]
    simp

theorem headAlpha_append (l1 l2 : List Char) (h : l1 ≠ []) :
    headAlpha (l1 ++ l2) = headAlpha l1 := by
  cases l1 with
  | nil => exact absurd rfl h
  | cons x xs => simp [headAlpha]

theorem takeWhile_append_all {p : Char → Bool} (l1 l2 : List Char)
    (h : ∀ x ∈ l1, p x = true) :
    List.takeWhile p (l1 ++ l2) = l1 ++ List.takeWhile p l2 := by
  induction l1 with
  | nil => simp
  | cons x xs ih =>
    have hx := h x (by simp)
    simp only [List.cons_append, List.takeWhile_cons, hx, if_true]
    rw [ih (fun y hy => h y (by simp [hy]))]

theorem dropWhile_append_all {p : Char → Bool} (l1 l2 : List Char)
    (h : ∀ x ∈ l1, p x = true) :
    List.dropWhile p (l1 ++ l2) = List.dropWhile p l2 := by
  induction l1 with
  | nil => simp
  | cons x xs ih =>
    have hx := h x (by simp)
    simp only [List.cons_append, List.dropWhile_cons, hx, if_true]
    exact ih (fun y hy => h y (by simp [hy]))

theorem dropWhile_eq_self_of_head {p : Char → Bool} (l : List Char)
    (h : ∀ x ∈ l.head?, p x = false) :
    List.dropWhile p l = l := by
  cases l with
  | nil => rfl
  | cons x xs =>
    have hx := h x (by simp)
    simp [List.dropWhile_cons, hx]

/-- `path.strip('/').split('/')[0]` applied to a path of the form
`/account/...`: it returns exactly the account segment. -/
theorem stripSlash_firstSegment (acc R : List Char) (hacc0 : acc ≠ [])
    (hs : ('/') ∉ acc) :
    (splitOnChar ('/') (pyStripSlash (('/') :: (acc ++ (('/') :: R))))).headD [] = acc := by
  obtain ⟨a, acc', rfl⟩ : ∃ a acc', acc = a :: acc' := by
    cases acc with
    | nil => exact absurd rfl hacc0
    | cons a t => exact ⟨a, t, rfl⟩
  have ha : a ≠ '/' := fun he => hs (by simp [he])
  have hmem : ∀ x ∈ a :: acc', x ≠ '/' := fun x hx he => hs (by rw [← he]; exact hx)
  have h1 : List.dropWhile (fun c => c = '/') (('/') :: ((a :: acc') ++ (('/') :: R)))
      = (a :: acc') ++ (('/') :: R) := by
    simp [List.dropWhile_cons, ha]
  simp only [pyStripSlash, h1]
  rcases hD : List.dropWhile (fun c => c = '/') R.reverse with _ | ⟨d, ds⟩
  · have h2 : List.dropWhile (fun c => c = '/')
        (((a :: acc') ++ (('/') :: R)).reverse) = (a :: acc').reverse := by
      rw [List.reverse_append, List.reverse_cons, List.append_assoc, List.singleton_append]
      rw [dropWhile_append_all _ _ (List.dropWhile_eq_nil_iff.mp hD)]
      rw [List.dropWhile_cons, if_pos (by decide)]
      refine dropWhile_eq_self_of_head _ ?_
      intro x hx
      have hx2 : x ∈ (a :: acc').reverse := List.mem_of_mem_head? hx
      have hx3 : x ∈ a :: acc' := List.mem_reverse.mp hx2
      simp [hmem x hx3]
    rw [h2, List.reverse_reverse]
    rw [splitOnChar_not_mem ('/') _ hs]
    simp
  · have hne : ¬ (List.dropWhile (fun c => c = '/') R.reverse).isEmpty = true := by
      rw [hD]
      simp
    have h2 : List.dropWhile (fun c => c = '/')
        (((a :: acc') ++ (('/') :: R)).reverse)
        = (d :: ds) ++ (('/') :: (a :: acc').reverse) := by
      rw [List.reverse_append, List.reverse_cons, List.append_assoc, List.singleton_append]
      rw [List.dropWhile_append, if_neg hne, hD]
    rw [h2]
    rw [List.reverse_append, List.reverse_cons, List.reverse_reverse]
    rw [List.append_assoc, List.singleton_append]
    rw [splitOnChar_headD_append ('/') _ _ hs, splitOnChar_headD_cons_self]
    simp

theorem findColonIdx_append (l1 l2 : List Char) (h : (':') ∉ l1) :
    findColonIdx (l1 ++ (':') :: l2) = some l1.length := by
  induction l1 with
  | nil => simp [findColonIdx]
  | cons x xs ih =>
    have hx : x ≠ ':' := fun he => h (by simp [he])
    have hxs : (':') ∉ xs := fun hm => h (by simp [hm])
    simp [findColonIdx, hx, ih hxs]

/-- `urlparse(url).path` on a well-formed URL `scheme://host/account/...`:
the scheme and netloc are stripped, leaving the path `/account/...` (with the
tail possibly cut at a `#` or `?`). -/
theorem urlparsePath_url (scheme host acc rest : List Char)
    (hs0 : scheme ≠ []) (hs1 : headAlpha scheme = true) (hs2 : scheme.all scheme_char = true)
    (hhost : ∀ x ∈ host, x ≠ '/' ∧ x ≠ '?' ∧ x ≠ '#')
    (hacc : ∀ x ∈ acc, x ≠ '/' ∧ x ≠ '?' ∧ x ≠ '#') :
    ∃ R, urlparsePath
        (scheme ++ ((':') :: (('/') :: (('/') :: (host ++ (('/') :: (acc ++ (('/') :: rest))))))))
      = ('/') :: (acc ++ (('/') :: R)) := by
  have hcs : (':') ∉ scheme := fun hm =>
    absurd (List.all_eq_true.mp hs2 (':') hm) (by decide)
  have hfind : findColonIdx
      (scheme ++ ((':') :: (('/') :: (('/') :: (host ++ (('/') :: (acc ++ (('/') :: rest))))))))
      = some scheme.length :=
    findColonIdx_append scheme _ hcs
  have hlen0 : ¬ scheme.length = 0 := fun h => hs0 (List.length_eq_zero.mp h)
  have hha : headAlpha
      (scheme ++ ((':') :: (('/') :: (('/') :: (host ++ (('/') :: (acc ++ (('/') :: rest))))))))
      = headAlpha scheme :=
    headAlpha_append scheme _ hs0
  have htake : (scheme ++ ((':') :: (('/') :: (('/') :: (host ++ (('/') :: (acc ++ (('/') :: rest)))))))).take scheme.length = scheme :=
    List.take_left _ _
  have hdropn : (scheme ++ ((':') :: (('/') :: (('/') :: (host ++ (('/') :: (acc ++ (('/') :: rest)))))))).drop (scheme.length + 1)
      = ('/') :: (('/') :: (host ++ (('/') :: (acc ++ (('/') :: rest))))) := by
    rw [show scheme ++ ((':') :: (('/') :: (('/') :: (host ++ (('/') :: (acc ++ (('/') :: rest)))))))
        = (scheme ++ [(':')]) ++ (('/') :: (('/') :: (host ++ (('/') :: (acc ++ (('/') :: rest))))))
      from by simp]
    rw [show scheme.length + 1 = (scheme ++ [(':')]).length from by simp]
    exact List.drop_left _ _
  have hostpred : ∀ x ∈ host,
      (fun c => c ≠ '/' && c ≠ '?' && c ≠ '#' : Char → Bool) x = true := by
    intro x hx
    obtain ⟨h1, h2, h3⟩ := hhost x hx
    simp [h1, h2, h3]
  have accq1 : ∀ x ∈ acc, (fun c => c ≠ '#' : Char → Bool) x = true := by
    intro x hx
    simp [(hacc x hx).2.2]
  have accq2 : ∀ x ∈ acc, (fun c => c ≠ '?' : Char → Bool) x = true := by
    intro x hx
    simp [(hacc x hx).2.1]
  refine ⟨List.takeWhile (fun c => c ≠ '?') (List.takeWhile (fun c => c ≠ '#') rest), ?_⟩
  simp only [urlparsePath, hfind]
  rw [if_neg hlen0, hha, htake, hs1, hs2]
  simp only [Bool.and_self, if_true, hdropn]
  rw [dropWhile_append_all host _ hostpred]
  rw [List.dropWhile_cons, if_neg (by decide)]
  rw [List.takeWhile_cons, if_pos (by decide)]
  rw [takeWhile_append_all acc _ accq1]
  rw [List.takeWhile_cons, if_pos (by decide)]
  rw [List.takeWhile_cons, if_pos (by decide)]
  rw [takeWhile_append_all acc _ accq2]
  rw [List.takeWhile_cons, if_pos (by decide)]

theorem not_gitAt_of_scheme (scheme rest : List Char)
    (hs2 : scheme.all scheme_char = true) :
    startsWithChars gitAtChars (scheme ++ (':') :: rest) = false := by
  rcases scheme with _ | ⟨a, _ | ⟨b, _ | ⟨c, _ | ⟨d, s4⟩⟩⟩⟩
  · simp [startsWithChars, gitAtChars]
  · simp [startsWithChars, gitAtChars]
  · simp [startsWithChars, gitAtChars]
  · simp [startsWithChars, gitAtChars]
  · have hd : scheme_char d = true := List.all_eq_true.mp hs2 d (by simp)
    have hne : ('@' : Char) ≠ d := by
      intro he
      rw [← he] at hd
      exact absurd hd (by decide)
    simp [startsWithChars, gitAtChars, hne]

/-- The URL branch of `extract_github_username`: for any location
`scheme://host/account/...` (scheme-like scheme, no path delimiters in host or
account), the function returns exactly the account — the first path segment
after the host. -/
theorem extract_url_family (scheme host acc rest : List Char)
    (hs0 : scheme ≠ []) (hs1 : headAlpha scheme = true) (hs2 : scheme.all scheme_char = true)
    (hhost : ∀ x ∈ host, x ≠ '/' ∧ x ≠ '?' ∧ x ≠ '#')
    (hacc0 : acc ≠ []) (hacc : ∀ x ∈ acc, x ≠ '/' ∧ x ≠ '?' ∧ x ≠ '#') :
    extract_github_username
        (String.mk (scheme ++ ((':') :: (('/') :: (('/') :: (host ++ (('/') :: (acc ++ (('/') :: rest)))))))))
      = Except.ok (String.mk acc) := by
  obtain ⟨R, hurl⟩ := urlparsePath_url scheme host acc rest hs0 hs1 hs2 hhost hacc
  have hng := not_gitAt_of_scheme scheme
    (('/') :: (('/') :: (host ++ (('/') :: (acc ++ (('/') :: rest)))))) hs2
  have hsl : ('/') ∉ acc := fun hm => (hacc _ hm).1 rfl
  simp only [extract_github_username, String.toList]
  rw [hng]
  simp only [Bool.false_eq_true, if_false]
  rw [hurl, stripSlash_firstSegment acc R hacc0 hsl]

/-- C6 is refuted at the SSH-style location "my_host:alice/app": the spec's
SSH rule names `alice` (the substring between the first colon and the
following slash), but the code's SSH branch fires only on a `git@` prefix;
this location falls through to URL parsing, the underscore prevents a scheme
parse, and the whole prefix `my_host:alice` is returned as the namespace. -/
theorem c6_counterexample :
    specSSHNamespace ("my_host:alice/app") = some ("alice") ∧
    extract_github_username ("my_host:alice/app") = Except.ok ("my_host:alice") ∧
    usernameResolve (Request.mk ("my_host:alice/app") ("tok123") ("my-app") none
      ("GitHub Container Registry (GHCR)") (".")) = Except.ok ("my_host:alice") ∧
    ("my_host:alice" : String) ≠ ("alice") :=
  ⟨by decide, rfl, rfl, by decide⟩

/-- C6 (amended): `resolveNamespace` is a pure function with: (1) a non-empty
explicit override returned verbatim; (2) for `git@`-prefixed SSH-style
locations `git@host:account/...`, the namespace is the substring between the
first colon and the following slash; (3) for URL-style locations
`scheme://host/account/...`, the namespace is the first path segment after the
host — so a `git@`-SSH-style and a URL-style location naming the same account
yield the same namespace.  (For SSH-style locations without the `git@` prefix
the code does not follow the spec's rule; see the counterexample.) -/
theorem c6_namespace_resolution :
    (∀ (req : Request) (u : String), req.username = some u → u ≠ "" →
      usernameResolve req = Except.ok u) ∧
    (∀ host acc rest : List Char, (':') ∉ host → (':') ∉ acc → ('/') ∉ acc →
      extract_github_username
          (String.mk (gitAtChars ++ (host ++ ((':') :: (acc ++ (('/') :: rest)))))) =
        Except.ok (String.mk acc)) ∧
    (∀ scheme host acc rest : List Char, scheme ≠ [] → headAlpha scheme = true →
      scheme.all scheme_char = true →
      (∀ x ∈ host, x ≠ '/' ∧ x ≠ '?' ∧ x ≠ '#') →
      acc ≠ [] → (∀ x ∈ acc, x ≠ '/' ∧ x ≠ '?' ∧ x ≠ '#') →
      extract_github_username
          (String.mk (scheme ++ ((':') :: (('/') :: (('/') :: (host ++ (('/') :: (acc ++ (('/') :: rest)))))))))
        = Except.ok (String.mk acc)) := by
  refine ⟨?_, extract_ssh_family, extract_url_family⟩
  intro req u hu hne
  simp [usernameResolve, hu, hne]

/-- Witness: the `git@` SSH form and the URL form for account `alice` resolve
to the same namespace. -/
theorem c6_witness :
    extract_github_username (String.mk (gitAtChars ++ (("github.com").toList ++
        ((':') :: (("alice").toList ++ (('/') :: ("app.git").toList))))))
      = Except.ok (String.mk ("alice").toList) ∧
    extract_github_username (String.mk (("https").toList ++ ((':') :: (('/') :: (('/') ::
        (("github.com").toList ++ (('/') :: (("alice").toList ++ (('/') :: ("app.git").toList)))))))))
      = Except.ok (String.mk ("alice").toList) :=
  ⟨c6_namespace_resolution.2.1 _ _ _ (by decide) (by decide) (by decide),
   c6_namespace_resolution.2.2 _ _ _ _ (by decide) (by decide) (by decide) (by decide)
     (by decide) (by decide)⟩

theorem extract_error_iff (s : String) :
    (∃ e, extract_github_username s = Except.error e) ↔
      (startsWithChars gitAtChars s.toList = true ∧
        (splitOnChar (':') s.toList).drop 1 = []) := by
  simp only [extract_github_username, String.toList]
  by_cases hg : startsWithChars gitAtChars s.data = true
  · rw [if_pos hg]
    rcases hd : (splitOnChar (':') s.data).drop 1 with _ | ⟨seg, tail⟩
    · simp [hg, hd]
    · simp [hg, hd]
  · rw [if_neg hg]
    simp [hg]

theorem splitOnChar_drop_one_nil_iff (c : Char) (l : List Char) :
    (splitOnChar c l).drop 1 = [] ↔ c ∉ l := by
  constructor
  · intro h hm
    have h2 := splitOnChar_two_le_of_mem c l hm
    have h3 : ((splitOnChar c l).drop 1).length = 0 := by rw [h]; rfl
    rw [List.length_drop] at h3
    omega
  · intro h
    rw [splitOnChar_not_mem c l h]
    rfl

/-- C7 is refuted at the location "garbage", which matches neither the SSH
form nor the URL form: the code does not fail — it silently returns the whole
string as the namespace. -/
theorem c7_counterexample :
    specSSHNamespace ("garbage") = none ∧
    hasSchemeSep ("garbage").toList = false ∧
    extract_github_username ("garbage") = Except.ok ("garbage") :=
  ⟨by decide, by decide, rfl⟩

/-- C7 (amended): namespace resolution never produces an `UnparseableLocation`
error.  It raises exactly when the location starts with `git@` yet contains no
colon (an `IndexError`, which the driver's exception handler surfaces as a
generic "Error: ..." log entry — see `run_resolveErr`); for every other
location, including ones matching neither spec form, it returns a
namespace. -/
theorem c7_no_unparseable_error (s : String) :
    (∃ e, extract_github_username s = Except.error e) ↔
      (startsWithChars gitAtChars s.toList = true ∧ ¬ (':') ∈ s.toList) := by
  rw [extract_error_iff]
  exact and_congr_right (fun _ => splitOnChar_drop_one_nil_iff (':') s.toList)

/-- Witness: `git@nohost` (no colon) raises; `anything-else` resolves. -/
theorem c7_witness :
    (∃ e, extract_github_username ("git@nohost") = Except.error e) ∧
    ¬ (∃ e, extract_github_username ("anything-else") = Except.error e) := by
  constructor
  · exact (c7_no_unparseable_error ("git@nohost")).mpr ⟨by decide, by decide⟩
  · intro h
    exact absurd ((c7_no_unparseable_error ("anything-else")).mp h).1 (by decide)

theorem c1_witness :
    ∃ fin, (build_and_push_image reqDemo ("/home/user") envAllOk).snapshots.getLast? = some fin ∧
      fin.getLast? = some (eCleanup envAllOk) :=
  (c1_workspace_removed_exactly_once reqDemo ("/home/user") envAllOk).2.2 (by decide)

theorem c3_witness :
    (∃ fin, (build_and_push_image reqDemo ("/home/user") envAllOk).snapshots.getLast?
        = some fin ∧ culminatingStatus fin = some ("success")) ∧
    (∃ fin, (build_and_push_image reqDemo ("/home/user") envCloneFail).snapshots.getLast?
        = some fin ∧ culminatingStatus fin = some ("error") ∧ errorEntryCount fin = 1) := by
  constructor
  · obtain ⟨fin, h1, _, h3, _⟩ := c3_log_culminates_in_marker reqDemo ("/home/user") envAllOk
    exact ⟨fin, h1, (h3 ⟨by decide, ⟨"alice", rfl⟩, rfl, rfl, rfl, rfl, rfl⟩).1⟩
  · obtain ⟨fin, h1, _, _, h4⟩ := c3_log_culminates_in_marker reqDemo ("/home/user") envCloneFail
    have hns : ¬ successRun reqDemo envCloneFail := by
      intro hs
      have h := hs.2.2.2.1
      simp [envCloneFail] at h
    exact ⟨fin, h1, (h4 hns).1, (h4 hns).2⟩

theorem c4_witness :
    procCalls (build_and_push_image reqBadName ("/home/user") envAllOk).events = [] ∧
    procCalls (build_and_push_image reqDemo ("/home/user") envCloneFail).events =
      [login_cmd reqDemo ("alice"), clone_cmd reqDemo ("/tmp/build")] := by
  constructor
  · exact (c4_failure_prevents_later_calls reqBadName ("/home/user") envAllOk).1 (by decide)
  · exact ((c4_failure_prevents_later_calls reqDemo ("/home/user") envCloneFail).2.2 ("alice")
      (by decide) rfl).2.1 rfl (by decide)

theorem c5_witness :
    (validate_image_name ("my-app")).1 = true ∧ 2 ≤ ("my-app").toList.length := by
  have h := c5_validate_characterized ("my-app")
  have hacc : (validate_image_name ("my-app")).1 = true := h.1.mpr (Or.inl (by decide))
  exact ⟨hacc, h.2.1 hacc⟩

theorem c8_witness :
    full_image_name_of reqDemo ("alice") = ("ghcr.io/alice/my-app") := by
  rw [(c8_resolved_reference reqDemo ("/home/user") envAllOk ("alice") (by decide) rfl).1 rfl]
  rfl

theorem c9_witness :
    (build_and_push_image { reqDemo with registry_token := ("other") }
        ("/home/user") envAllOk).snapshots =
      (build_and_push_image reqDemo ("/home/user") envAllOk).snapshots ∧
    (("tok123" : String) = reqDemo.registry_token ∧
      ∃ u, usernameResolve reqDemo = Except.ok u ∧
        login_cmd reqDemo ("alice") = login_cmd reqDemo u) := by
  have h := c9_credential_only_via_stdin reqDemo ("/home/user") envAllOk ("other")
  exact ⟨h.1, h.2.2.2 (login_cmd reqDemo ("alice")) ("tok123") (by decide)⟩

